import Mathlib

/-!
Shallow embedding of the getopt package (src/getopt/getopt.go).

Go strings are modelled as lists of characters (`GoStr`); all tokens that the
claims exercise are ASCII, where one Go byte is one `Char`.  The four mutable
descriptor kinds (Flag, OptArg, OptVec, OptCount) live in a store `PState.opts`
indexed by `Nat`; the two registry maps `optByShort` / `optByLong` are
association lists mapping to store indices, so that both maps share one mutable
descriptor, as the Go pointers do.  The package-level `Rest` slice is the
`rest` field.  `ParseArgv` returns the final state together with an optional
error, mirroring Go's in-place mutation plus returned `error` (mutations
performed before a failure are visible in the returned state, as they are in
the Go globals).
-/

namespace Getopt

abbrev GoStr := List Char

/-- Convert a Lean string literal to the byte-list model of a Go string. -/
def gs (s : String) : GoStr := s.data

/-- The payload of one descriptor: the four option kinds of the package
(`Flag.Passed`, `OptArg.Opt`, `OptVec.OptArgs`, `OptCount.Count`). -/
inductive OptVal where
  | flag (passed : Bool)
  | optArg (opt : GoStr)
  | optVec (optArgs : List GoStr)
  | optCount (count : Int)
deriving DecidableEq, Repr

/-- Constructor index of an `OptVal`; the Go type switch dispatches on this. -/
def OptVal.kind : OptVal → Nat
  | .flag _ => 0
  | .optArg _ => 1
  | .optVec _ => 2
  | .optCount _ => 3

/-- One registered option: the `Short`/`Long`/`Help` fields common to the four
Go structs plus the kind-specific mutable payload. -/
structure Descr where
  short : Char
  long : GoStr
  help : GoStr
  val : OptVal
deriving DecidableEq, Repr

/-- The package-level mutable state: the descriptor store, the two lookup
maps (`optByShort`, `optByLong`, holding store indices), and `Rest`. -/
structure PState where
  opts : List Descr
  byShort : List (Char × Nat)
  byLong : List (GoStr × Nat)
  rest : List GoStr
deriving DecidableEq, Repr

/-- The state before any registration: empty store, empty maps, empty Rest. -/
def emptyState : PState := ⟨[], [], [], []⟩

/-- The structured error kinds `ParseArgv` can return (section 7 of the
documentation); `stdinErr` stands for an error propagated from `StdinHandler`. -/
inductive PError where
  | unrecognizedLong (name : GoStr)
  | unrecognizedShort (c : Char)
  | boolParse (lit : GoStr)
  | numParse (lit : GoStr) (name : GoStr)
  | missingArgument (short : Char) (long : GoStr)
  | stdinErr
deriving DecidableEq, Repr

/-- The carry-over state of the parse loop: `expecting_opt`/`expecting_optarg`
together with the `waiting_opt`/`waiting_vec` pointer, as a store index. -/
inductive Waiting where
  | none
  | arg (id : Nat)
  | vec (id : Nat)
deriving DecidableEq, Repr

/-- `optByShort[c]`. -/
def lookupShort (s : PState) (c : Char) : Option Nat := s.byShort.lookup c

/-- `optByLong[name]`. -/
def lookupLong (s : PState) (name : GoStr) : Option Nat := s.byLong.lookup name

/-- The descriptor a store index points to. -/
def getOpt (s : PState) (id : Nat) : Option Descr := s.opts[id]?

/-- The payload of the descriptor a store index points to. -/
def optValAt (s : PState) (id : Nat) : Option OptVal := (getOpt s id).map Descr.val

/-- Replace the element at one index of a list, leaving the rest alone. -/
def updateAt : List Descr → Nat → (Descr → Descr) → List Descr
  | [], _, _ => []
  | d :: ds, 0, f => f d :: ds
  | d :: ds, Nat.succ n, f => d :: updateAt ds n f

/-- Mutate the payload of the descriptor at index `id` in place. -/
def updateOpt (s : PState) (id : Nat) (f : OptVal → OptVal) : PState :=
  { s with opts := updateAt s.opts id (fun d => { d with val := f d.val }) }

/-- `Flag.Passed = b` (on a non-Flag payload this has no Go counterpart:
the typed pointer in the source can only reach a `Flag`). -/
def vSetPassed (b : Bool) : OptVal → OptVal
  | .flag _ => .flag b
  | v => v

/-- `OptArg.Opt = a`. -/
def vSetOpt (a : GoStr) : OptVal → OptVal
  | .optArg _ => .optArg a
  | v => v

/-- `OptVec.OptArgs = append(OptVec.OptArgs, a)`. -/
def vPushVec (a : GoStr) : OptVal → OptVal
  | .optVec l => .optVec (l ++ [a])
  | v => v

/-- `OptVec.OptArgs = make([]string, 0)`. -/
def vClearVec : OptVal → OptVal
  | .optVec _ => .optVec []
  | v => v

/-- `OptCount.Count += k`. -/
def vAddCount (k : Int) : OptVal → OptVal
  | .optCount n => .optCount (n + k)
  | v => v

/-- `OptCount.Count = n`. -/
def vSetCount (n : Int) : OptVal → OptVal
  | .optCount _ => .optCount n
  | v => v

def setPassed (s : PState) (id : Nat) (b : Bool) : PState := updateOpt s id (vSetPassed b)

def setOptVal (s : PState) (id : Nat) (a : GoStr) : PState := updateOpt s id (vSetOpt a)

def pushVec (s : PState) (id : Nat) (a : GoStr) : PState := updateOpt s id (vPushVec a)

def clearVec (s : PState) (id : Nat) : PState := updateOpt s id vClearVec

def addCount (s : PState) (id : Nat) (k : Int) : PState := updateOpt s id (vAddCount k)

def setCount (s : PState) (id : Nat) (n : Int) : PState := updateOpt s id (vSetCount n)

/-- `Rest = append(Rest, a)`. -/
def addRest (s : PState) (a : GoStr) : PState := { s with rest := s.rest ++ [a] }

/-- Shared body of the four constructors: store the descriptor and insert it
into both lookup maps (a later registration shadows an earlier one for the
same key, as Go map assignment overwrites). -/
def register (s : PState) (d : Descr) : PState × Nat :=
  let id := s.opts.length
  ({ s with
      opts := s.opts ++ [d]
      byShort := (d.short, id) :: s.byShort
      byLong := (d.long, id) :: s.byLong }, id)

/-- `NewFlag`. -/
def newFlag (s : PState) (short : Char) (long help : GoStr) : PState × Nat :=
  register s ⟨short, long, help, .flag false⟩

/-- `NewOptArg`. -/
def newOptArg (s : PState) (short : Char) (long help : GoStr) : PState × Nat :=
  register s ⟨short, long, help, .optArg []⟩

/-- `NewOptVec`. -/
def newOptVec (s : PState) (short : Char) (long help : GoStr) : PState × Nat :=
  register s ⟨short, long, help, .optVec []⟩

/-- `NewOptCount`. -/
def newOptCount (s : PState) (short : Char) (long help : GoStr) : PState × Nat :=
  register s ⟨short, long, help, .optCount 0⟩

/-- `optargToBool`: case-insensitive comparison against "t", "f", "true",
"false" (`strings.EqualFold`, restricted to the ASCII folding the literals
need). -/
def asciiLower (c : Char) : Char :=
  if 'A' ≤ c ∧ c ≤ 'Z' then Char.ofNat (c.toNat + 32) else c

/-- `strings.EqualFold` on ASCII data. -/
def eqFold (a b : GoStr) : Bool := a.map asciiLower == b.map asciiLower

/-- `optargToBool` from the source, with the structured boolean-parse error. -/
def optargToBool (s : GoStr) : Except PError Bool :=
  if eqFold s (gs "t") then .ok true
  else if eqFold s (gs "f") then .ok false
  else if eqFold s (gs "true") then .ok true
  else if eqFold s (gs "false") then .ok false
  else .error (.boolParse s)

/-! `strconv.ParseInt(s, 0, 32)`, the exact call the OptCount assignment path
makes: base auto-detection from the literal prefix, underscore tolerance of
base 0, and the 32-bit range check.  Magnitudes are computed in `Nat`, so the
mid-loop cutoff checks of Go's `ParseUint` collapse into the final range
comparison (the accumulated value is monotone, so overflow at any point
implies the final value is out of range too). -/

/-- Go's `lower(c) = c | ('x'-'X')` on a byte. -/
def lowerC (c : Char) : Nat := c.toNat ||| 32

/-- One digit of Go's `ParseUint` loop (before the `d >= base` check). -/
def digitVal (c : Char) : Option Nat :=
  if '0'.toNat ≤ c.toNat ∧ c.toNat ≤ '9'.toNat then some (c.toNat - '0'.toNat)
  else if 'a'.toNat ≤ lowerC c ∧ lowerC c ≤ 'z'.toNat then some (lowerC c - 'a'.toNat + 10)
  else none

/-- The digit-accumulation loop of `ParseUint` with base 0 in force:
underscores are skipped (recorded), other characters must be digits of the
base.  Returns the exact magnitude and whether an underscore was seen. -/
def scanDigits (b : Nat) : List Char → Nat → Bool → Option (Nat × Bool)
  | [], n, u => some (n, u)
  | c :: cs, n, u =>
    if c = '_' then scanDigits b cs n true
    else
      match digitVal c with
      | none => none
      | some d => if b ≤ d then none else scanDigits b cs (n * b + d) u

/-- Base detection of `ParseUint` with base 0: `0b`/`0o`/`0x` prefixes (when
at least one character follows), else a leading `0` means octal, else
decimal. -/
def baseAndDigits (s : GoStr) : Nat × GoStr :=
  match s with
  | '0' :: rest =>
    match rest with
    | c1 :: c2 :: rs =>
      if lowerC c1 = 'b'.toNat then (2, c2 :: rs)
      else if lowerC c1 = 'o'.toNat then (8, c2 :: rs)
      else if lowerC c1 = 'x'.toNat then (16, c2 :: rs)
      else (8, rest)
    | _ => (8, rest)
  | _ => (10, s)

/-- The scan loop of Go's `underscoreOK`: `saw` is `^` at the start, `0`
after a digit or base prefix, `_` after an underscore, `!` otherwise. -/
def underscoreLoop (hex : Bool) : List Char → Char → Bool
  | [], saw => saw ≠ '_'
  | c :: cs, saw =>
    if ('0'.toNat ≤ c.toNat ∧ c.toNat ≤ '9'.toNat) ∨
        (hex ∧ 'a'.toNat ≤ lowerC c ∧ lowerC c ≤ 'f'.toNat) then
      underscoreLoop hex cs '0'
    else if c = '_' then
      if saw ≠ '0' then false else underscoreLoop hex cs '_'
    else if saw = '_' then false
    else underscoreLoop hex cs '!'

/-- Go's `underscoreOK`: underscores may only sit between a base prefix or
digit and a digit. -/
def underscoreOK (s : GoStr) : Bool :=
  let s1 := match s with
    | c :: rest => if c = '-' ∨ c = '+' then rest else s
    | [] => s
  match s1 with
  | c0 :: c1 :: rest =>
    if c0 = '0' ∧ (lowerC c1 = 'b'.toNat ∨ lowerC c1 = 'o'.toNat ∨ lowerC c1 = 'x'.toNat) then
      underscoreLoop (lowerC c1 = 'x'.toNat) rest '0'
    else underscoreLoop false s1 '^'
  | _ => underscoreLoop false s1 '^'

/-- `strconv.ParseUint(s, 0, 32)` up to the sign handling of `ParseInt`:
`none` exactly when Go reports a syntax error; range errors are left to the
caller's comparison on the exact magnitude. -/
def parseUint0 (s : GoStr) : Option Nat :=
  match s with
  | [] => none
  | _ =>
    let bd := baseAndDigits s
    match scanDigits bd.1 bd.2 0 false with
    | none => none
    | some (n, u) => if u ∧ ¬ underscoreOK s then none else some n

/-- `strconv.ParseInt(s, 0, 32)`: `none` exactly when the Go call returns a
non-nil error (syntax or range), which is the only distinction the package
makes. -/
def parseIntGo (s : GoStr) : Option Int :=
  match s with
  | [] => none
  | c :: rest =>
    let su : Bool × GoStr :=
      if c = '+' then (false, rest)
      else if c = '-' then (true, rest)
      else (false, s)
    match parseUint0 su.2 with
    | none => none
    | some n =>
      if ¬ su.1 ∧ 2 ^ 31 ≤ n then none
      else if su.1 ∧ 2 ^ 31 < n then none
      else if su.1 then some (-(n : Int)) else some (n : Int)

/-- `strings.IndexByte`: index of the first occurrence, `none` for Go's -1. -/
def indexByte (b : Char) : GoStr → Option Nat
  | [] => none
  | c :: cs => if c = b then some 0 else (indexByte b cs).map (· + 1)

/-! The parse loop of `ParseArgv`.  One iteration of the Go `for i, arg`
loop (with no awaiting value pending and a non-empty token) is `stepTok`;
its outcome is either: continue with a possibly updated awaiting state,
stop and flush the remaining tokens into Rest (the literal `--`), or stop
with an error.  `parseLoop` drives the iterations and holds the awaiting
state; `ParseArgv` starts it with no value pending. -/

/-- Outcome of processing one token. -/
inductive Step where
  | cont (w : Waiting) (s : PState)
  | done (s : PState)
  | fail (s : PState) (e : PError)
deriving DecidableEq, Repr

/-- The positive bare effect (the type switch shared by the two-character
`-c` form and the bare `--long` form): Flag → Passed=true, OptArg/OptVec →
enter the awaiting state, OptCount → Count++.  An index outside the store has
no Go counterpart (the registry only holds live pointers) and is a no-op. -/
def bareApply (s : PState) (id : Nat) : Step :=
  match optValAt s id with
  | some (.flag _) => .cont .none (setPassed s id true)
  | some (.optArg _) => .cont (.arg id) s
  | some (.optVec _) => .cont (.vec id) s
  | some (.optCount _) => .cont .none (addCount s id 1)
  | none => .cont .none s

/-- The negate effect (the type switch shared by the two-character `+c` form
and the `+` cluster): Flag → Passed=false, OptArg → Opt="", OptVec →
OptArgs=[], OptCount → Count--. -/
def negApply (s : PState) (id : Nat) : PState :=
  match optValAt s id with
  | some (.flag _) => setPassed s id false
  | some (.optArg _) => setOptVal s id []
  | some (.optVec _) => clearVec s id
  | some (.optCount _) => addCount s id (-1)
  | none => s

/-- The assignment effect of `--name=value`: Flag → `optargToBool`,
OptArg → overwrite, OptVec → append, OptCount → `strconv.ParseInt(value,0,32)`. -/
def assignApply (s : PState) (id : Nat) (name value : GoStr) : Step :=
  match optValAt s id with
  | some (.flag _) =>
    match optargToBool value with
    | .error e => .fail s e
    | .ok b => .cont .none (setPassed s id b)
  | some (.optArg _) => .cont .none (setOptVal s id value)
  | some (.optVec _) => .cont .none (pushVec s id value)
  | some (.optCount _) =>
    match parseIntGo value with
    | none => .fail s (.numParse value name)
    | some n => .cont .none (setCount s id n)
  | none => .cont .none s

/-- The `-` cluster scan (`for i := 1; i < len(arg); i++` in the source):
every character is looked up in the short map; an unknown character fails at
once keeping the effects applied so far; an OptArg/OptVec with characters
left takes them as its attached value and ends the scan (`goto
arg_loop_end`); an OptArg/OptVec in last position enters the awaiting
state. -/
def scanMinus : PState → List Char → Step
  | s, [] => .cont .none s
  | s, c :: cs =>
    match lookupShort s c with
    | none => .fail s (.unrecognizedShort c)
    | some id =>
      match optValAt s id with
      | some (.flag _) => scanMinus (setPassed s id true) cs
      | some (.optArg _) =>
        if cs = [] then .cont (.arg id) s
        else .cont .none (setOptVal s id cs)
      | some (.optVec _) =>
        if cs = [] then .cont (.vec id) s
        else .cont .none (pushVec s id cs)
      | some (.optCount _) => scanMinus (addCount s id 1) cs
      | none => scanMinus s cs

/-- The `+` cluster scan: every character gets the negate effect; an unknown
character fails at once keeping the effects applied so far. -/
def scanPlus : PState → List Char → PState × Option PError
  | s, [] => (s, none)
  | s, c :: cs =>
    match lookupShort s c with
    | none => (s, some (.unrecognizedShort c))
    | some id => scanPlus (negApply s id) cs

/-- Process one non-empty token with no awaiting value pending: the token
classification of `ParseArgv` (single character / two characters / three or
more). -/
def stepTok (stdin : Option PError) (arg : GoStr) (s : PState) : Step :=
  match arg with
  | [] => .cont .none s
  | [c] =>
    if c = '-' then
      match stdin with
      | some e => .fail s e
      | none => .cont .none s
    else .cont .none (addRest s arg)
  | [c0, c1] =>
    if c0 = '-' then
      if c1 = '-' then .done s
      else
        match lookupShort s c1 with
        | none => .cont .none s
        | some id => bareApply s id
    else if c0 = '+' then
      match lookupShort s c1 with
      | none => .cont .none s
      | some id => .cont .none (negApply s id)
    else .cont .none (addRest s arg)
  | c0 :: c1 :: c2 :: cs =>
    let tl : GoStr := c2 :: cs
    if c0 = '-' then
      if c1 = '-' then
        match indexByte '=' (c0 :: c1 :: tl) with
        | none =>
          match lookupLong s tl with
          | none => .fail s (.unrecognizedLong tl)
          | some id => bareApply s id
        | some e =>
          let name := ((c0 :: c1 :: tl).drop 2).take (e - 2)
          let value := (c0 :: c1 :: tl).drop (e + 1)
          match lookupLong s name with
          | none => .cont .none s
          | some id => assignApply s id name value
      else scanMinus s (c1 :: tl)
    else if c0 = '+' then
      match scanPlus s (c1 :: tl) with
      | (s', none) => .cont .none s'
      | (s', some e) => .fail s' e
    else .cont .none (addRest s (c0 :: c1 :: tl))

/-- `Rest = append(Rest, argv[j])` for every remaining token, in order (the
inner `for j := i + 1` loop of the `--` branch). -/
def appendRest (s : PState) (ts : List GoStr) : PState :=
  { s with rest := ts.foldl (fun r t => r ++ [t]) s.rest }

/-- The `MissingArgument` error at the end of the loop, naming the pending
descriptor's `Short` and `Long` fields. -/
def mkMissing (s : PState) (id : Nat) : PError :=
  match getOpt s id with
  | some d => .missingArgument d.short d.long
  | none => .missingArgument '?' []

/-- The `for i, arg := range argv` loop of `ParseArgv`: empty tokens are
skipped; with an awaiting value pending the token is consumed as that value
unconditionally; otherwise the token is classified by `stepTok`.  Returns
the final state and Go's returned error (`none` = nil). -/
def parseLoop (stdin : Option PError) : List GoStr → Waiting → PState → PState × Option PError
  | [], .none, s => (s, none)
  | [], .arg id, s => (s, some (mkMissing s id))
  | [], .vec id, s => (s, some (mkMissing s id))
  | arg :: rest, w, s =>
    match arg with
    | [] => parseLoop stdin rest w s
    | _ =>
      match w with
      | .arg id => parseLoop stdin rest .none (setOptVal s id arg)
      | .vec id => parseLoop stdin rest .none (pushVec s id arg)
      | .none =>
        match stepTok stdin arg s with
        | .cont w' s' => parseLoop stdin rest w' s'
        | .done s' => (appendRest s' rest, none)
        | .fail s' e => (s', some e)

/-- `ParseArgv`: run the loop with no awaiting value pending.  `stdin` is the
result the `StdinHandler` callback would return (`none` = success, the
default handler). -/
def ParseArgv (stdin : Option PError) (argv : List GoStr) (s : PState) : PState × Option PError :=
  parseLoop stdin argv .none s

/-! Token shapes used by the claims. -/

/-- The terminator token `--`. -/
def ddTok : GoStr := ['-', '-']

/-- The bare long form `--long`. -/
def bareLong (long : GoStr) : GoStr := '-' :: '-' :: long

/-- The assignment long form `--long=value`. -/
def eqLong (long value : GoStr) : GoStr := '-' :: '-' :: (long ++ '=' :: value)

/-- The attached short form `-xvalue`. -/
def attShort (x : Char) (value : GoStr) : GoStr := '-' :: x :: value

/-! Basic lemmas about the store and the registries. -/

theorem updateAt_getElem_self (l : List Descr) (f : Descr → Descr) :
    ∀ i, (updateAt l i f)[i]? = l[i]?.map f := by
  induction l with
  | nil => intro i; simp [updateAt]
  | cons d ds ih =>
    intro i
    cases i with
    | zero => simp [updateAt]
    | succ n => simpa [updateAt] using ih n

theorem updateAt_getElem_ne (l : List Descr) (f : Descr → Descr) :
    ∀ i j, i ≠ j → (updateAt l i f)[j]? = l[j]? := by
  induction l with
  | nil => intro i j _; simp [updateAt]
  | cons d ds ih =>
    intro i j hij
    cases i with
    | zero =>
      cases j with
      | zero => exact absurd rfl hij
      | succ m => simp [updateAt]
    | succ n =>
      cases j with
      | zero => simp [updateAt]
      | succ m =>
        have : n ≠ m := fun h => hij (by rw [h])
        simpa [updateAt] using ih n m this

theorem updateAt_updateAt (l : List Descr) (f g : Descr → Descr) :
    ∀ i, updateAt (updateAt l i f) i g = updateAt l i (fun d => g (f d)) := by
  induction l with
  | nil => intro i; simp [updateAt]
  | cons d ds ih =>
    intro i
    cases i with
    | zero => simp [updateAt]
    | succ n => simp [updateAt, ih n]

theorem lookupShort_updateOpt (s : PState) (id : Nat) (f : OptVal → OptVal) (c : Char) :
    lookupShort (updateOpt s id f) c = lookupShort s c := rfl

theorem lookupLong_updateOpt (s : PState) (id : Nat) (f : OptVal → OptVal) (n : GoStr) :
    lookupLong (updateOpt s id f) n = lookupLong s n := rfl

theorem rest_updateOpt (s : PState) (id : Nat) (f : OptVal → OptVal) :
    (updateOpt s id f).rest = s.rest := rfl

theorem optValAt_updateOpt_self (s : PState) (id : Nat) (f : OptVal → OptVal) :
    optValAt (updateOpt s id f) id = (optValAt s id).map f := by
  unfold optValAt getOpt updateOpt
  rw [updateAt_getElem_self]
  cases s.opts[id]? <;> simp

theorem optValAt_updateOpt_ne (s : PState) (id j : Nat) (f : OptVal → OptVal) (h : id ≠ j) :
    optValAt (updateOpt s id f) j = optValAt s j := by
  unfold optValAt getOpt updateOpt
  rw [updateAt_getElem_ne _ _ _ _ h]

theorem updateOpt_updateOpt (s : PState) (id : Nat) (f g : OptVal → OptVal) :
    updateOpt (updateOpt s id f) id g = updateOpt s id (fun v => g (f v)) := by
  unfold updateOpt
  simp [updateAt_updateAt]

theorem setOptVal_setOptVal (s : PState) (id : Nat) (a b : GoStr) :
    setOptVal (setOptVal s id a) id b = setOptVal s id b := by
  unfold setOptVal
  rw [updateOpt_updateOpt]
  congr 1
  funext v
  cases v <;> rfl

/-! Unfolding lemmas for the parse loop. -/

theorem parseLoop_nil_none (stdin : Option PError) (s : PState) :
    parseLoop stdin [] .none s = (s, none) := rfl

theorem parseLoop_nil_arg (stdin : Option PError) (s : PState) (id : Nat) :
    parseLoop stdin [] (.arg id) s = (s, some (mkMissing s id)) := rfl

theorem parseLoop_nil_vec (stdin : Option PError) (s : PState) (id : Nat) :
    parseLoop stdin [] (.vec id) s = (s, some (mkMissing s id)) := rfl

theorem parseLoop_empty_tok (stdin : Option PError) (rest : List GoStr) (w : Waiting) (s : PState) :
    parseLoop stdin ([] :: rest) w s = parseLoop stdin rest w s := by
  cases w <;> rfl

theorem parseLoop_consume_arg (stdin : Option PError) (c : Char) (cs : GoStr)
    (rest : List GoStr) (s : PState) (id : Nat) :
    parseLoop stdin ((c :: cs) :: rest) (.arg id) s =
      parseLoop stdin rest .none (setOptVal s id (c :: cs)) := rfl

theorem parseLoop_consume_vec (stdin : Option PError) (c : Char) (cs : GoStr)
    (rest : List GoStr) (s : PState) (id : Nat) :
    parseLoop stdin ((c :: cs) :: rest) (.vec id) s =
      parseLoop stdin rest .none (pushVec s id (c :: cs)) := rfl

theorem parseLoop_step (stdin : Option PError) (c : Char) (cs : GoStr)
    (rest : List GoStr) (s : PState) :
    parseLoop stdin ((c :: cs) :: rest) .none s =
      match stepTok stdin (c :: cs) s with
      | .cont w' s' => parseLoop stdin rest w' s'
      | .done s' => (appendRest s' rest, none)
      | .fail s' e => (s', some e) := rfl

theorem parseLoop_step_cont (stdin : Option PError) (arg : GoStr) (rest : List GoStr)
    (s : PState) (w' : Waiting) (s' : PState)
    (hne : arg ≠ []) (hstep : stepTok stdin arg s = .cont w' s') :
    parseLoop stdin (arg :: rest) .none s = parseLoop stdin rest w' s' := by
  cases arg with
  | nil => exact absurd rfl hne
  | cons c cs => rw [parseLoop_step, hstep]

theorem parseLoop_step_done (stdin : Option PError) (arg : GoStr) (rest : List GoStr)
    (s : PState) (s' : PState)
    (hne : arg ≠ []) (hstep : stepTok stdin arg s = .done s') :
    parseLoop stdin (arg :: rest) .none s = (appendRest s' rest, none) := by
  cases arg with
  | nil => exact absurd rfl hne
  | cons c cs => rw [parseLoop_step, hstep]

theorem parseLoop_step_fail (stdin : Option PError) (arg : GoStr) (rest : List GoStr)
    (s : PState) (s' : PState) (e : PError)
    (hne : arg ≠ []) (hstep : stepTok stdin arg s = .fail s' e) :
    parseLoop stdin (arg :: rest) .none s = (s', some e) := by
  cases arg with
  | nil => exact absurd rfl hne
  | cons c cs => rw [parseLoop_step, hstep]

theorem appendRest_eq (s : PState) (ts : List GoStr) :
    appendRest s ts = { s with rest := s.rest ++ ts } := by
  unfold appendRest
  congr 1
  induction ts generalizing s with
  | nil => simp
  | cons t ts ih =>
    simpa using ih { s with rest := s.rest ++ [t] }

/-! Lemmas about `indexByte`. -/

theorem indexByte_eq_none (b : Char) (l : GoStr) (h : b ∉ l) : indexByte b l = none := by
  induction l with
  | nil => rfl
  | cons c cs ih =>
    have hc : c ≠ b := fun hcb => h (hcb ▸ List.mem_cons_self c cs)
    simp only [indexByte, if_neg hc]
    rw [ih (fun hm => h (List.mem_cons_of_mem c hm))]
    rfl

theorem indexByte_append (b : Char) (l r : GoStr) (h : b ∉ l) :
    indexByte b (l ++ b :: r) = some l.length := by
  induction l with
  | nil => simp [indexByte]
  | cons c cs ih =>
    have hc : c ≠ b := fun hcb => h (hcb ▸ List.mem_cons_self c cs)
    have ihh := ih (fun hm => h (List.mem_cons_of_mem c hm))
    simp only [List.cons_append, indexByte, if_neg hc]
    show Option.map (· + 1) (indexByte b (cs ++ b :: r)) = some (c :: cs).length
    rw [ihh]
    rfl

/-! Classification lemmas: which branch of `stepTok` each token shape takes. -/

theorem stepTok_dd (stdin : Option PError) (s : PState) : stepTok stdin ddTok s = .done s := rfl

theorem stepTok_shortMinus (stdin : Option PError) (c : Char) (s : PState) (hc : c ≠ '-') :
    stepTok stdin ['-', c] s =
      match lookupShort s c with
      | none => .cont .none s
      | some id => bareApply s id := by
  simp [stepTok, hc]

theorem stepTok_shortPlus (stdin : Option PError) (c : Char) (s : PState) :
    stepTok stdin ['+', c] s =
      match lookupShort s c with
      | none => .cont .none s
      | some id => .cont .none (negApply s id) := by
  simp [stepTok]

theorem stepTok_minusCluster (stdin : Option PError) (c1 c2 : Char) (cs : GoStr) (s : PState)
    (hc1 : c1 ≠ '-') :
    stepTok stdin ('-' :: c1 :: c2 :: cs) s = scanMinus s (c1 :: c2 :: cs) := by
  simp [stepTok, hc1]

theorem stepTok_plusCluster (stdin : Option PError) (c1 c2 : Char) (cs : GoStr) (s : PState) :
    stepTok stdin ('+' :: c1 :: c2 :: cs) s =
      match scanPlus s (c1 :: c2 :: cs) with
      | (s', none) => .cont .none s'
      | (s', some e) => .fail s' e := by
  simp [stepTok]

theorem stepTok_bareLong (stdin : Option PError) (s : PState) (l0 : Char) (ls : GoStr)
    (hne : '=' ∉ (l0 :: ls : GoStr)) :
    stepTok stdin (bareLong (l0 :: ls)) s =
      match lookupLong s (l0 :: ls) with
      | none => .fail s (.unrecognizedLong (l0 :: ls))
      | some id => bareApply s id := by
  have hmem : ('=' : Char) ∉ ('-' :: '-' :: l0 :: ls : GoStr) := by
    intro hm
    rcases List.mem_cons.mp hm with h | hm
    · exact absurd h (by decide)
    rcases List.mem_cons.mp hm with h | hm
    · exact absurd h (by decide)
    · exact hne hm
  have h1 := indexByte_eq_none '=' _ hmem
  simp [stepTok, bareLong, h1]

theorem indexByte_cons (b c : Char) (cs : GoStr) :
    indexByte b (c :: cs) = if c = b then some 0 else (indexByte b cs).map (· + 1) := rfl

theorem stepTok_eqLong (stdin : Option PError) (s : PState) (l0 : Char) (ls v : GoStr)
    (hne : '=' ∉ (l0 :: ls : GoStr)) :
    stepTok stdin (eqLong (l0 :: ls) v) s =
      match lookupLong s (l0 :: ls) with
      | none => .cont .none s
      | some id => assignApply s id (l0 :: ls) v := by
  have h1 : indexByte '=' ('-' :: '-' :: l0 :: (ls ++ '=' :: v)) =
      some ((l0 :: ls : GoStr).length + 1 + 1) := by
    rw [indexByte_cons, if_neg (by decide : ¬ ('-' : Char) = '=')]
    rw [indexByte_cons, if_neg (by decide : ¬ ('-' : Char) = '=')]
    rw [show (l0 :: (ls ++ '=' :: v) : GoStr) = (l0 :: ls) ++ '=' :: v from rfl]
    rw [indexByte_append '=' (l0 :: ls) v hne]
    rfl
  show stepTok stdin ('-' :: '-' :: l0 :: (ls ++ '=' :: v)) s = _
  simp [stepTok, h1]

/-! The specific mutators never touch the registries or Rest. -/

theorem lookupShort_setPassed (s : PState) (id : Nat) (b : Bool) (c : Char) :
    lookupShort (setPassed s id b) c = lookupShort s c := rfl

theorem lookupShort_setOptVal (s : PState) (id : Nat) (a : GoStr) (c : Char) :
    lookupShort (setOptVal s id a) c = lookupShort s c := rfl

theorem lookupShort_pushVec (s : PState) (id : Nat) (a : GoStr) (c : Char) :
    lookupShort (pushVec s id a) c = lookupShort s c := rfl

theorem lookupShort_addCount (s : PState) (id : Nat) (k : Int) (c : Char) :
    lookupShort (addCount s id k) c = lookupShort s c := rfl

theorem lookupLong_setPassed (s : PState) (id : Nat) (b : Bool) (n : GoStr) :
    lookupLong (setPassed s id b) n = lookupLong s n := rfl

theorem lookupLong_setOptVal (s : PState) (id : Nat) (a : GoStr) (n : GoStr) :
    lookupLong (setOptVal s id a) n = lookupLong s n := rfl

theorem lookupLong_addCount (s : PState) (id : Nat) (k : Int) (n : GoStr) :
    lookupLong (addCount s id k) n = lookupLong s n := rfl

theorem optValAt_setPassed_self (s : PState) (id : Nat) (b : Bool) :
    optValAt (setPassed s id b) id = (optValAt s id).map (vSetPassed b) :=
  optValAt_updateOpt_self s id (vSetPassed b)

theorem optValAt_setOptVal_self (s : PState) (id : Nat) (a : GoStr) :
    optValAt (setOptVal s id a) id = (optValAt s id).map (vSetOpt a) :=
  optValAt_updateOpt_self s id (vSetOpt a)

theorem optValAt_pushVec_self (s : PState) (id : Nat) (a : GoStr) :
    optValAt (pushVec s id a) id = (optValAt s id).map (vPushVec a) :=
  optValAt_updateOpt_self s id (vPushVec a)

theorem optValAt_addCount_self (s : PState) (id : Nat) (k : Int) :
    optValAt (addCount s id k) id = (optValAt s id).map (vAddCount k) :=
  optValAt_updateOpt_self s id (vAddCount k)

theorem optValAt_setCount_self (s : PState) (id : Nat) (n : Int) :
    optValAt (setCount s id n) id = (optValAt s id).map (vSetCount n) :=
  optValAt_updateOpt_self s id (vSetCount n)

/-! Concrete registries for the witnesses: each is built only through the
constructor functions, as a Go program would. -/

/-- A registry holding one OptArg: `NewOptArg('f', "file", "")`. -/
def sArgW : PState := (newOptArg emptyState 'f' (gs "file") []).1

/-- A registry holding one Flag: `NewFlag('f', "force", "")`. -/
def sFlagW : PState := (newFlag emptyState 'f' (gs "force") []).1

/-- A registry holding one OptCount: `NewOptCount('v', "verbose", "")`. -/
def sCntW : PState := (newOptCount emptyState 'v' (gs "verbose") []).1

/-- A registry holding a Flag `a`/`about` (index 0) and an OptArg `f`/`file`
(index 1). -/
def sAF : PState :=
  (newOptArg (newFlag emptyState 'a' (gs "about") []).1 'f' (gs "file") []).1

/-- C1: with the awaiting-value state active for a SingleArg (OptArg) or
MultiArg (OptVec) descriptor, the next non-empty token — whatever its shape —
is consumed as the value: overwritten into the OptArg, or appended to the
OptVec, and the awaiting state clears before the remaining tokens are
processed. -/
theorem C1_awaiting_consumes (stdin : Option PError) (t : GoStr) (argv : List GoStr)
    (s : PState) (id : Nat) (h : t ≠ []) :
    parseLoop stdin (t :: argv) (.arg id) s = parseLoop stdin argv .none (setOptVal s id t)
    ∧ parseLoop stdin (t :: argv) (.vec id) s = parseLoop stdin argv .none (pushVec s id t) := by
  cases t with
  | nil => exact absurd rfl h
  | cons c cs => exact ⟨rfl, rfl⟩

/-- Witness for C1 at a concrete input: the option-shaped token `-x` is
consumed as the value. -/
theorem C1_awaiting_consumes_witness :
    (gs "-x" ≠ []) ∧
    (parseLoop none [gs "-x"] (.arg 0) sArgW =
        parseLoop none [] .none (setOptVal sArgW 0 (gs "-x"))
      ∧ parseLoop none [gs "-x"] (.vec 0) sArgW =
        parseLoop none [] .none (pushVec sArgW 0 (gs "-x"))) :=
  ⟨by decide, C1_awaiting_consumes none (gs "-x") [] sArgW 0 (by decide)⟩

/-- C2: a literal `--` token met with no awaiting value pending sends every
remaining token, verbatim and in order, to Rest, and the call returns
success immediately. -/
theorem C2_terminator (stdin : Option PError) (rest : List GoStr) (s : PState) :
    parseLoop stdin (ddTok :: rest) .none s = ({ s with rest := s.rest ++ rest }, none)
    ∧ ParseArgv stdin (ddTok :: rest) s = ({ s with rest := s.rest ++ rest }, none) := by
  have h : parseLoop stdin (ddTok :: rest) .none s = (appendRest s rest, none) := by
    rw [show ddTok = '-' :: ['-'] from rfl, parseLoop_step]
    rfl
  rw [appendRest_eq] at h
  exact ⟨h, h⟩

/-- C6: when the token stream ends with the awaiting-value state still
active, the call fails with the missing-argument error carrying the pending
descriptor's short character and long name; in particular a bare `--long`
for a registered OptArg as the final token fails this way. -/
theorem C6_missing_argument (stdin : Option PError) (s : PState) (id : Nat) (d : Descr)
    (hd : getOpt s id = some d) :
    parseLoop stdin [] (.arg id) s = (s, some (.missingArgument d.short d.long))
    ∧ parseLoop stdin [] (.vec id) s = (s, some (.missingArgument d.short d.long))
    ∧ (∀ l0 ls, lookupLong s (l0 :: ls) = some id → (∃ a, d.val = .optArg a) →
        '=' ∉ (l0 :: ls : GoStr) →
        ParseArgv stdin [bareLong (l0 :: ls)] s = (s, some (.missingArgument d.short d.long))) := by
  refine ⟨?_, ?_, ?_⟩
  · rw [parseLoop_nil_arg]
    simp [mkMissing, hd]
  · rw [parseLoop_nil_vec]
    simp [mkMissing, hd]
  · intro l0 ls hL ha hne
    obtain ⟨a, hv⟩ := ha
    have hval : optValAt s id = some (.optArg a) := by
      simp [optValAt, hd, hv]
    have hstep : stepTok stdin (bareLong (l0 :: ls)) s = .cont (.arg id) s := by
      rw [stepTok_bareLong stdin s l0 ls hne, hL]
      simp [bareApply, hval]
    have h1 := parseLoop_step_cont stdin (bareLong (l0 :: ls)) [] s (.arg id) s
      (by simp [bareLong]) hstep
    rw [ParseArgv, h1, parseLoop_nil_arg]
    simp [mkMissing, hd]

/-- Witness for C6 at a concrete input: `--file` as last token for the
registered OptArg `f`/`file`. -/
theorem C6_missing_argument_witness :
    (getOpt sArgW 0 = some ⟨'f', gs "file", [], .optArg []⟩) ∧
    ParseArgv none [bareLong (gs "file")] sArgW =
      (sArgW, some (.missingArgument 'f' (gs "file"))) :=
  ⟨by decide,
    (C6_missing_argument none sArgW 0 ⟨'f', gs "file", [], .optArg []⟩ (by decide)).2.2
      'f' (gs "ile") (by decide) ⟨[], rfl⟩ (by decide)⟩

/-- C9: an empty-string token is skipped in every state, including while a
value is awaited; hence a value supplied as a separate token can never be
empty — `["--file", ""]` for a registered OptArg fails with the
missing-argument error, leaving the value untouched, instead of storing "". -/
theorem C9_empty_value_token (stdin : Option PError) (s : PState) (id : Nat) (d : Descr)
    (hd : getOpt s id = some d) :
    (∀ argv w s2, parseLoop stdin (([] : GoStr) :: argv) w s2 = parseLoop stdin argv w s2)
    ∧ (∀ l0 ls, lookupLong s (l0 :: ls) = some id → (∃ a, d.val = .optArg a) →
        '=' ∉ (l0 :: ls : GoStr) →
        ParseArgv stdin [bareLong (l0 :: ls), []] s = (s, some (.missingArgument d.short d.long))) := by
  constructor
  · intro argv w s2
    exact parseLoop_empty_tok stdin argv w s2
  · intro l0 ls hL ha hne
    obtain ⟨a, hv⟩ := ha
    have hval : optValAt s id = some (.optArg a) := by
      simp [optValAt, hd, hv]
    have hstep : stepTok stdin (bareLong (l0 :: ls)) s = .cont (.arg id) s := by
      rw [stepTok_bareLong stdin s l0 ls hne, hL]
      simp [bareApply, hval]
    have h1 := parseLoop_step_cont stdin (bareLong (l0 :: ls)) [[]] s (.arg id) s
      (by simp [bareLong]) hstep
    rw [ParseArgv, h1, parseLoop_empty_tok, parseLoop_nil_arg]
    simp [mkMissing, hd]

/-- Witness for C9 at a concrete input: `["--file", ""]` fails with the
missing-argument error rather than setting the value to the empty string. -/
theorem C9_empty_value_token_witness :
    (getOpt sArgW 0 = some ⟨'f', gs "file", [], .optArg []⟩) ∧
    ParseArgv none [bareLong (gs "file"), []] sArgW =
      (sArgW, some (.missingArgument 'f' (gs "file"))) :=
  ⟨by decide,
    (C9_empty_value_token none sArgW 0 ⟨'f', gs "file", [], .optArg []⟩ (by decide)).2
      'f' (gs "ile") (by decide) ⟨[], rfl⟩ (by decide)⟩

/-- C8: a two-character token `-c` or `+c` whose character is not registered
is silently skipped — parsing continues as if the token were absent (no
error, no Rest entry, no descriptor change) — while the same unknown name or
character in the bare long form or in a cluster is a fatal
unrecognized-option error. -/
theorem C8_unknown_twochar_ignored (stdin : Option PError) (s : PState) (c : Char)
    (hc : lookupShort s c = none) (hcd : c ≠ '-') :
    (∀ rest, parseLoop stdin (['-', c] :: rest) .none s = parseLoop stdin rest .none s)
    ∧ (∀ rest, parseLoop stdin (['+', c] :: rest) .none s = parseLoop stdin rest .none s)
    ∧ (∀ l0 ls, '=' ∉ (l0 :: ls : GoStr) → lookupLong s (l0 :: ls) = none →
        ParseArgv stdin [bareLong (l0 :: ls)] s = (s, some (.unrecognizedLong (l0 :: ls))))
    ∧ (∀ c2, ParseArgv stdin [['-', c, c2]] s = (s, some (.unrecognizedShort c)))
    ∧ (∀ c2, ParseArgv stdin [['+', c, c2]] s = (s, some (.unrecognizedShort c))) := by
  refine ⟨?_, ?_, ?_, ?_, ?_⟩
  · intro rest
    apply parseLoop_step_cont stdin ['-', c] rest s .none s (by simp)
    rw [stepTok_shortMinus stdin c s hcd, hc]
  · intro rest
    apply parseLoop_step_cont stdin ['+', c] rest s .none s (by simp)
    rw [stepTok_shortPlus stdin c s, hc]
  · intro l0 ls hne hL
    apply parseLoop_step_fail stdin (bareLong (l0 :: ls)) [] s s _ (by simp [bareLong])
    rw [stepTok_bareLong stdin s l0 ls hne, hL]
  · intro c2
    apply parseLoop_step_fail stdin ['-', c, c2] [] s s _ (by simp)
    rw [stepTok_minusCluster stdin c c2 [] s hcd]
    simp [scanMinus, hc]
  · intro c2
    apply parseLoop_step_fail stdin ['+', c, c2] [] s s _ (by simp)
    rw [stepTok_plusCluster stdin c c2 [] s]
    simp [scanPlus, hc]

/-- Witness for C8 at a concrete input: `-z` is skipped while `-zq` is a
fatal unrecognized-option error, with `z` unregistered. -/
theorem C8_unknown_twochar_ignored_witness :
    (lookupShort sArgW 'z' = none) ∧ ('z' ≠ '-') ∧
    parseLoop none [gs "-z"] .none sArgW = parseLoop none [] .none sArgW ∧
    ParseArgv none [gs "-zq"] sArgW = (sArgW, some (.unrecognizedShort 'z')) :=
  ⟨by decide, by decide,
    (C8_unknown_twochar_ignored none sArgW 'z' (by decide) (by decide)).1 [],
    (C8_unknown_twochar_ignored none sArgW 'z' (by decide) (by decide)).2.2.2.1 'q'⟩

/-! The three ways of giving a SingleArg its value. -/

/-- A complete occurrence of a SingleArg option: `--long=V`, `--long V`
(two tokens), or attached `-xV`. -/
inductive SAForm where
  | eq
  | sep
  | att
deriving DecidableEq, Repr

/-- The token(s) of one occurrence in the given form. -/
def saTokens : SAForm → GoStr → Char → GoStr → List GoStr
  | .eq, long, _, v => [eqLong long v]
  | .sep, long, _, v => [bareLong long, v]
  | .att, _, x, v => [attShort x v]

/-- Processing one complete SingleArg occurrence (in any of the three forms,
with a non-empty value) overwrites the descriptor's value with `V` and
continues with the remaining tokens, with no awaiting state pending. -/
theorem saStep (stdin : Option PError) (s : PState) (id : Nat) (l0 : Char) (ls : GoStr)
    (x : Char) (old : GoStr)
    (hL : lookupLong s (l0 :: ls) = some id)
    (hS : lookupShort s x = some id)
    (hval : optValAt s id = some (.optArg old))
    (hne : '=' ∉ (l0 :: ls : GoStr))
    (hx : x ≠ '-')
    (f : SAForm) (V : GoStr) (hV : V ≠ []) (ts : List GoStr) :
    parseLoop stdin (saTokens f (l0 :: ls) x V ++ ts) .none s =
      parseLoop stdin ts .none (setOptVal s id V) := by
  cases f with
  | eq =>
    show parseLoop stdin (eqLong (l0 :: ls) V :: ts) .none s = _
    apply parseLoop_step_cont stdin (eqLong (l0 :: ls) V) ts s .none (setOptVal s id V)
      (by simp [eqLong])
    rw [stepTok_eqLong stdin s l0 ls V hne, hL]
    simp [assignApply, hval]
  | sep =>
    show parseLoop stdin (bareLong (l0 :: ls) :: V :: ts) .none s = _
    have h1 : parseLoop stdin (bareLong (l0 :: ls) :: V :: ts) .none s =
        parseLoop stdin (V :: ts) (.arg id) s := by
      apply parseLoop_step_cont stdin (bareLong (l0 :: ls)) (V :: ts) s (.arg id) s
        (by simp [bareLong])
      rw [stepTok_bareLong stdin s l0 ls hne, hL]
      simp [bareApply, hval]
    rw [h1]
    cases V with
    | nil => exact absurd rfl hV
    | cons v0 vs => exact parseLoop_consume_arg stdin v0 vs ts s id
  | att =>
    show parseLoop stdin (attShort x V :: ts) .none s = _
    cases V with
    | nil => exact absurd rfl hV
    | cons v0 vs =>
      apply parseLoop_step_cont stdin (attShort x (v0 :: vs)) ts s .none
        (setOptVal s id (v0 :: vs)) (by simp [attShort])
      show stepTok stdin ('-' :: x :: v0 :: vs) s = _
      rw [stepTok_minusCluster stdin x v0 vs s hx]
      simp [scanMinus, hS, hval]

/-- C3: for a registered SingleArg with short char `x` and long name `long`,
each of `--long=V`, the two-token `--long V`, and the attached `-xV` sets the
stored value to `V`; and an occurrence following another occurrence (each in
any of the three forms) overwrites the earlier value, leaving `V2`. -/
theorem C3_singleArg_value (stdin : Option PError) (s : PState) (id : Nat)
    (l0 : Char) (ls : GoStr) (x : Char) (old : GoStr)
    (hL : lookupLong s (l0 :: ls) = some id)
    (hS : lookupShort s x = some id)
    (hval : optValAt s id = some (.optArg old))
    (hne : '=' ∉ (l0 :: ls : GoStr))
    (hx : x ≠ '-') :
    (∀ f V, V ≠ [] → ParseArgv stdin (saTokens f (l0 :: ls) x V) s = (setOptVal s id V, none))
    ∧ (∀ V, optValAt (setOptVal s id V) id = some (.optArg V))
    ∧ (∀ f1 f2 V1 V2, V1 ≠ [] → V2 ≠ [] →
        ParseArgv stdin (saTokens f1 (l0 :: ls) x V1 ++ saTokens f2 (l0 :: ls) x V2) s =
          (setOptVal s id V2, none)) := by
  refine ⟨?_, ?_, ?_⟩
  · intro f V hV
    have h := saStep stdin s id l0 ls x old hL hS hval hne hx f V hV []
    rw [List.append_nil] at h
    rw [ParseArgv, h, parseLoop_nil_none]
  · intro V
    rw [optValAt_setOptVal_self, hval]
    rfl
  · intro f1 f2 V1 V2 h1 h2
    have ha := saStep stdin s id l0 ls x old hL hS hval hne hx f1 V1 h1
      (saTokens f2 (l0 :: ls) x V2)
    have hval2 : optValAt (setOptVal s id V1) id = some (.optArg V1) := by
      rw [optValAt_setOptVal_self, hval]
      rfl
    have hb := saStep stdin (setOptVal s id V1) id l0 ls x V1 hL hS hval2 hne hx f2 V2 h2 []
    rw [List.append_nil] at hb
    rw [ParseArgv, ha, hb, parseLoop_nil_none, setOptVal_setOptVal]

/-- Witness for C3 at concrete inputs: `--file=a` then `-fb` leaves the
value `b` for the registered OptArg `f`/`file`. -/
theorem C3_singleArg_value_witness :
    (lookupLong sArgW (gs "file") = some 0 ∧ lookupShort sArgW 'f' = some 0 ∧
      optValAt sArgW 0 = some (.optArg []) ∧ '=' ∉ gs "file" ∧ 'f' ≠ '-') ∧
    ParseArgv none (saTokens .eq (gs "file") 'f' (gs "a") ++ saTokens .att (gs "file") 'f' (gs "b"))
        sArgW = (setOptVal sArgW 0 (gs "b"), none) :=
  ⟨⟨by decide, by decide, by decide, by decide, by decide⟩,
    (C3_singleArg_value none sArgW 0 'f' (gs "ile") 'f' [] (by decide) (by decide) (by decide)
      (by decide) (by decide)).2.2 .eq .att (gs "a") (gs "b") (by decide) (by decide)⟩

/-- C4: for a registered Counter starting at zero, the cluster `-xxx` yields
count 3; three bare `--long` tokens yield count 3; `--long=3` yields count 3
(set, via `strconv.ParseInt`); and each `+x` token decrements the count by
one — from 0 to -1, and from 3 (after `-xxx`) to 2. -/
theorem C4_counter (stdin : Option PError) (s : PState) (id : Nat) (l0 x : Char) (ls : GoStr)
    (hS : lookupShort s x = some id)
    (hL : lookupLong s (l0 :: ls) = some id)
    (hval : optValAt s id = some (.optCount 0))
    (hne : '=' ∉ (l0 :: ls : GoStr))
    (hx : x ≠ '-') :
    (ParseArgv stdin [['-', x, x, x]] s = (addCount (addCount (addCount s id 1) id 1) id 1, none))
    ∧ (ParseArgv stdin [bareLong (l0 :: ls), bareLong (l0 :: ls), bareLong (l0 :: ls)] s =
        (addCount (addCount (addCount s id 1) id 1) id 1, none))
    ∧ optValAt (addCount (addCount (addCount s id 1) id 1) id 1) id = some (.optCount 3)
    ∧ (ParseArgv stdin [eqLong (l0 :: ls) (gs "3")] s = (setCount s id 3, none)
        ∧ optValAt (setCount s id 3) id = some (.optCount 3))
    ∧ (ParseArgv stdin [['+', x]] s = (addCount s id (-1), none)
        ∧ optValAt (addCount s id (-1)) id = some (.optCount (-1)))
    ∧ (ParseArgv stdin [['-', x, x, x], ['+', x]] s =
        (addCount (addCount (addCount (addCount s id 1) id 1) id 1) id (-1), none)
        ∧ optValAt (addCount (addCount (addCount (addCount s id 1) id 1) id 1) id (-1)) id =
          some (.optCount 2)) := by
  have hv1 : optValAt (addCount s id 1) id = some (.optCount (0 + 1)) := by
    rw [optValAt_addCount_self, hval]
    rfl
  have hv2 : optValAt (addCount (addCount s id 1) id 1) id = some (.optCount (0 + 1 + 1)) := by
    rw [optValAt_addCount_self, hv1]
    rfl
  have hv3 : optValAt (addCount (addCount (addCount s id 1) id 1) id 1) id =
      some (.optCount (0 + 1 + 1 + 1)) := by
    rw [optValAt_addCount_self, hv2]
    rfl
  have hsm : scanMinus s [x, x, x] = .cont .none (addCount (addCount (addCount s id 1) id 1) id 1) := by
    simp [scanMinus, hS, hval, hv1, hv2, lookupShort_addCount]
  have hstepA : stepTok stdin ['-', x, x, x] s =
      .cont .none (addCount (addCount (addCount s id 1) id 1) id 1) := by
    rw [stepTok_minusCluster stdin x x [x] s hx]
    exact hsm
  have hb : ∀ s2 : PState, lookupLong s2 (l0 :: ls) = some id →
      ∀ n : Int, optValAt s2 id = some (.optCount n) →
      stepTok stdin (bareLong (l0 :: ls)) s2 = .cont .none (addCount s2 id 1) := by
    intro s2 hL2 n hval2
    rw [stepTok_bareLong stdin s2 l0 ls hne, hL2]
    simp [bareApply, hval2]
  refine ⟨?_, ?_, ?_, ⟨?_, ?_⟩, ⟨?_, ?_⟩, ?_, ?_⟩
  · rw [ParseArgv, parseLoop_step_cont stdin ['-', x, x, x] [] s .none _ (by simp) hstepA,
      parseLoop_nil_none]
  · rw [ParseArgv,
      parseLoop_step_cont stdin (bareLong (l0 :: ls)) _ s .none _ (by simp [bareLong])
        (hb s hL 0 hval),
      parseLoop_step_cont stdin (bareLong (l0 :: ls)) _ _ .none _ (by simp [bareLong])
        (hb (addCount s id 1) hL (0 + 1) hv1),
      parseLoop_step_cont stdin (bareLong (l0 :: ls)) _ _ .none _ (by simp [bareLong])
        (hb (addCount (addCount s id 1) id 1) hL (0 + 1 + 1) hv2),
      parseLoop_nil_none]
  · rw [hv3]
    norm_num
  · have h3 : parseIntGo (gs "3") = some 3 := by decide
    have hstep : stepTok stdin (eqLong (l0 :: ls) (gs "3")) s = .cont .none (setCount s id 3) := by
      rw [stepTok_eqLong stdin s l0 ls (gs "3") hne, hL]
      simp [assignApply, hval, h3]
    rw [ParseArgv, parseLoop_step_cont stdin (eqLong (l0 :: ls) (gs "3")) [] s .none _
      (by simp [eqLong]) hstep, parseLoop_nil_none]
  · rw [optValAt_setCount_self, hval]
    rfl
  · have hstep : stepTok stdin ['+', x] s = .cont .none (addCount s id (-1)) := by
      rw [stepTok_shortPlus stdin x s, hS]
      simp [negApply, hval]
    rw [ParseArgv, parseLoop_step_cont stdin ['+', x] [] s .none _ (by simp) hstep,
      parseLoop_nil_none]
  · rw [optValAt_addCount_self, hval]
    rfl
  · have hstep2 : stepTok stdin ['+', x] (addCount (addCount (addCount s id 1) id 1) id 1) =
        .cont .none (addCount (addCount (addCount (addCount s id 1) id 1) id 1) id (-1)) := by
      rw [stepTok_shortPlus, lookupShort_addCount, lookupShort_addCount, lookupShort_addCount, hS]
      simp [negApply, hv3]
    rw [ParseArgv, parseLoop_step_cont stdin ['-', x, x, x] _ s .none _ (by simp) hstepA,
      parseLoop_step_cont stdin ['+', x] [] _ .none _ (by simp) hstep2, parseLoop_nil_none]
  · rw [optValAt_addCount_self, hv3]
    norm_num [vAddCount]

/-- Witness for C4 at a concrete input: `-vvv` for the registered Counter
`v`/`verbose` yields count 3. -/
theorem C4_counter_witness :
    (lookupShort sCntW 'v' = some 0 ∧ lookupLong sCntW (gs "verbose") = some 0 ∧
      optValAt sCntW 0 = some (.optCount 0) ∧ '=' ∉ gs "verbose" ∧ 'v' ≠ '-') ∧
    ParseArgv none [gs "-vvv"] sCntW =
      (addCount (addCount (addCount sCntW 0 1) 0 1) 0 1, none) :=
  ⟨⟨by decide, by decide, by decide, by decide, by decide⟩,
    (C4_counter none sCntW 0 'v' 'v' (gs "erbose") (by decide) (by decide) (by decide)
      (by decide) (by decide)).1⟩

/-- C5: for a registered Flag, `-x` and `--long` set passed to true; `+x`,
`--long=false` and `--long=F` set it to false (boolean literals matched
case-insensitively against t/f/true/false); `--long=Fase` fails with the
boolean-parse error. -/
theorem C5_flag (stdin : Option PError) (s : PState) (id : Nat) (l0 x : Char) (ls : GoStr)
    (b0 : Bool)
    (hS : lookupShort s x = some id)
    (hL : lookupLong s (l0 :: ls) = some id)
    (hval : optValAt s id = some (.flag b0))
    (hne : '=' ∉ (l0 :: ls : GoStr))
    (hx : x ≠ '-') :
    (ParseArgv stdin [['-', x]] s = (setPassed s id true, none))
    ∧ (ParseArgv stdin [bareLong (l0 :: ls)] s = (setPassed s id true, none))
    ∧ (ParseArgv stdin [['+', x]] s = (setPassed s id false, none))
    ∧ (ParseArgv stdin [eqLong (l0 :: ls) (gs "false")] s = (setPassed s id false, none))
    ∧ (ParseArgv stdin [eqLong (l0 :: ls) (gs "F")] s = (setPassed s id false, none))
    ∧ (ParseArgv stdin [eqLong (l0 :: ls) (gs "Fase")] s = (s, some (.boolParse (gs "Fase"))))
    ∧ optValAt (setPassed s id true) id = some (.flag true)
    ∧ optValAt (setPassed s id false) id = some (.flag false) := by
  refine ⟨?_, ?_, ?_, ?_, ?_, ?_, ?_, ?_⟩
  · have hstep : stepTok stdin ['-', x] s = .cont .none (setPassed s id true) := by
      rw [stepTok_shortMinus stdin x s hx, hS]
      simp [bareApply, hval]
    rw [ParseArgv, parseLoop_step_cont stdin ['-', x] [] s .none _ (by simp) hstep,
      parseLoop_nil_none]
  · have hstep : stepTok stdin (bareLong (l0 :: ls)) s = .cont .none (setPassed s id true) := by
      rw [stepTok_bareLong stdin s l0 ls hne, hL]
      simp [bareApply, hval]
    rw [ParseArgv, parseLoop_step_cont stdin (bareLong (l0 :: ls)) [] s .none _
      (by simp [bareLong]) hstep, parseLoop_nil_none]
  · have hstep : stepTok stdin ['+', x] s = .cont .none (setPassed s id false) := by
      rw [stepTok_shortPlus stdin x s, hS]
      simp [negApply, hval]
    rw [ParseArgv, parseLoop_step_cont stdin ['+', x] [] s .none _ (by simp) hstep,
      parseLoop_nil_none]
  · have hbool : optargToBool (gs "false") = .ok false := rfl
    have hstep : stepTok stdin (eqLong (l0 :: ls) (gs "false")) s =
        .cont .none (setPassed s id false) := by
      rw [stepTok_eqLong stdin s l0 ls (gs "false") hne, hL]
      simp [assignApply, hval, hbool]
    rw [ParseArgv, parseLoop_step_cont stdin (eqLong (l0 :: ls) (gs "false")) [] s .none _
      (by simp [eqLong]) hstep, parseLoop_nil_none]
  · have hbool : optargToBool (gs "F") = .ok false := rfl
    have hstep : stepTok stdin (eqLong (l0 :: ls) (gs "F")) s =
        .cont .none (setPassed s id false) := by
      rw [stepTok_eqLong stdin s l0 ls (gs "F") hne, hL]
      simp [assignApply, hval, hbool]
    rw [ParseArgv, parseLoop_step_cont stdin (eqLong (l0 :: ls) (gs "F")) [] s .none _
      (by simp [eqLong]) hstep, parseLoop_nil_none]
  · have hbool : optargToBool (gs "Fase") = .error (.boolParse (gs "Fase")) := rfl
    have hstep : stepTok stdin (eqLong (l0 :: ls) (gs "Fase")) s =
        .fail s (.boolParse (gs "Fase")) := by
      rw [stepTok_eqLong stdin s l0 ls (gs "Fase") hne, hL]
      simp [assignApply, hval, hbool]
    rw [ParseArgv, parseLoop_step_fail stdin (eqLong (l0 :: ls) (gs "Fase")) [] s s _
      (by simp [eqLong]) hstep]
  · rw [optValAt_setPassed_self, hval]
    rfl
  · rw [optValAt_setPassed_self, hval]
    rfl

/-- Witness for C5 at concrete inputs: `--force=F` negates the registered
Flag `f`/`force` and `--force=Fase` is a boolean-parse error. -/
theorem C5_flag_witness :
    (lookupShort sFlagW 'f' = some 0 ∧ lookupLong sFlagW (gs "force") = some 0 ∧
      optValAt sFlagW 0 = some (.flag false) ∧ '=' ∉ gs "force" ∧ 'f' ≠ '-') ∧
    ParseArgv none [eqLong (gs "force") (gs "F")] sFlagW = (setPassed sFlagW 0 false, none) ∧
    ParseArgv none [eqLong (gs "force") (gs "Fase")] sFlagW =
      (sFlagW, some (.boolParse (gs "Fase"))) :=
  ⟨⟨by decide, by decide, by decide, by decide, by decide⟩,
    (C5_flag none sFlagW 0 'f' 'f' (gs "orce") false (by decide) (by decide) (by decide)
      (by decide) (by decide)).2.2.2.2.1,
    (C5_flag none sFlagW 0 'f' 'f' (gs "orce") false (by decide) (by decide) (by decide)
      (by decide) (by decide)).2.2.2.2.2.1⟩

/-! No syntactically valid unsigned literal starts with a sign character:
`ParseUint` meets the sign where a digit (or `0` prefix) is required. -/

theorem parseUint0_nil : parseUint0 [] = none := rfl

theorem parseUint0_plus (rest : GoStr) : parseUint0 ('+' :: rest) = none := rfl

theorem parseUint0_minus (rest : GoStr) : parseUint0 ('-' :: rest) = none := rfl

/-- C10: assignment to a Counter via `--long=V` goes through
`strconv.ParseInt(V, 0, 32)`: base auto-detection accepts hexadecimal,
binary and leading-zero octal literals, but the size limit is 32 bits —
every syntactically valid literal (an unsigned body of magnitude `n`,
optionally preceded by one sign) whose value is outside the signed 32-bit
range, i.e. `n ≥ 2^31` for the unsigned and `+`-signed forms or `n > 2^31`
for the `-`-signed form, fails with the number-parse error; in particular
3000000000 fails even though it fits the 64-bit counter field. -/
theorem C10_counter_assign (stdin : Option PError) (s : PState) (id : Nat) (l0 : Char)
    (ls : GoStr) (n0 : Int)
    (hL : lookupLong s (l0 :: ls) = some id)
    (hval : optValAt s id = some (.optCount n0))
    (hne : '=' ∉ (l0 :: ls : GoStr)) :
    (ParseArgv stdin [eqLong (l0 :: ls) (gs "0x10")] s = (setCount s id 16, none))
    ∧ (ParseArgv stdin [eqLong (l0 :: ls) (gs "0b101")] s = (setCount s id 5, none))
    ∧ (ParseArgv stdin [eqLong (l0 :: ls) (gs "017")] s = (setCount s id 15, none))
    ∧ (∀ (u : GoStr) (n : Nat), parseUint0 u = some n →
        (2 ^ 31 ≤ n →
          parseIntGo u = none ∧ parseIntGo ('+' :: u) = none ∧
          ParseArgv stdin [eqLong (l0 :: ls) u] s = (s, some (.numParse u (l0 :: ls))) ∧
          ParseArgv stdin [eqLong (l0 :: ls) ('+' :: u)] s =
            (s, some (.numParse ('+' :: u) (l0 :: ls))))
        ∧ (2 ^ 31 < n →
          parseIntGo ('-' :: u) = none ∧
          ParseArgv stdin [eqLong (l0 :: ls) ('-' :: u)] s =
            (s, some (.numParse ('-' :: u) (l0 :: ls)))))
    ∧ (parseIntGo (gs "3000000000") = none
        ∧ ParseArgv stdin [eqLong (l0 :: ls) (gs "3000000000")] s =
          (s, some (.numParse (gs "3000000000") (l0 :: ls))))
    ∧ ((3000000000 : Int) < 2 ^ 63) := by
  have hfailgen : ∀ V : GoStr, parseIntGo V = none →
      ParseArgv stdin [eqLong (l0 :: ls) V] s = (s, some (.numParse V (l0 :: ls))) := by
    intro V hr
    have hstep : stepTok stdin (eqLong (l0 :: ls) V) s = .fail s (.numParse V (l0 :: ls)) := by
      rw [stepTok_eqLong stdin s l0 ls V hne, hL]
      simp [assignApply, hval, hr]
    rw [ParseArgv, parseLoop_step_fail stdin (eqLong (l0 :: ls) V) [] s s _
      (by simp [eqLong]) hstep]
  have hsetgen : ∀ (V : GoStr) (k : Int), parseIntGo V = some k →
      ParseArgv stdin [eqLong (l0 :: ls) V] s = (setCount s id k, none) := by
    intro V k hk
    have hstep : stepTok stdin (eqLong (l0 :: ls) V) s = .cont .none (setCount s id k) := by
      rw [stepTok_eqLong stdin s l0 ls V hne, hL]
      simp [assignApply, hval, hk]
    rw [ParseArgv, parseLoop_step_cont stdin (eqLong (l0 :: ls) V) [] s .none _
      (by simp [eqLong]) hstep, parseLoop_nil_none]
  have hr : parseIntGo (gs "3000000000") = none := by decide
  refine ⟨hsetgen _ 16 (by decide), hsetgen _ 5 (by decide), hsetgen _ 15 (by decide),
    ?_, ⟨hr, hfailgen _ hr⟩, by norm_num⟩
  intro u n hu
  constructor
  · intro hn
    have hn2 : 2147483648 ≤ n := by
      norm_num at hn
      exact hn
    have hpos : parseIntGo u = none := by
      cases u with
      | nil => rw [parseUint0_nil] at hu; exact Option.noConfusion hu
      | cons c rest =>
        have hcp : c ≠ '+' := by
          rintro rfl; rw [parseUint0_plus] at hu; exact Option.noConfusion hu
        have hcm : c ≠ '-' := by
          rintro rfl; rw [parseUint0_minus] at hu; exact Option.noConfusion hu
        simp [parseIntGo, hcp, hcm, hu, hn2]
    have hplus : parseIntGo ('+' :: u) = none := by
      simp [parseIntGo, hu, hn2]
    exact ⟨hpos, hplus, hfailgen u hpos, hfailgen _ hplus⟩
  · intro hn
    have hn2 : 2147483648 < n := by
      norm_num at hn
      exact hn
    have hminus : parseIntGo ('-' :: u) = none := by
      simp [parseIntGo, hu, hn2]
    exact ⟨hminus, hfailgen _ hminus⟩

/-- Witness for C10 at a concrete input: the out-of-range clause applied to
the literal 3000000000 (magnitude 3000000000 ≥ 2^31) makes
`--verbose=3000000000` and `--verbose=+3000000000` fail with the
number-parse error for the registered Counter. -/
theorem C10_counter_assign_witness :
    (lookupLong sCntW (gs "verbose") = some 0 ∧ optValAt sCntW 0 = some (.optCount 0) ∧
      '=' ∉ gs "verbose" ∧ parseUint0 (gs "3000000000") = some 3000000000 ∧
      2 ^ 31 ≤ 3000000000) ∧
    (parseIntGo (gs "3000000000") = none ∧ parseIntGo ('+' :: gs "3000000000") = none ∧
      ParseArgv none [eqLong (gs "verbose") (gs "3000000000")] sCntW =
        (sCntW, some (.numParse (gs "3000000000") (gs "verbose"))) ∧
      ParseArgv none [eqLong (gs "verbose") ('+' :: gs "3000000000")] sCntW =
        (sCntW, some (.numParse ('+' :: gs "3000000000") (gs "verbose")))) :=
  ⟨⟨by decide, by decide, by decide, by decide, by decide⟩,
    ((C10_counter_assign none sCntW 0 'v' (gs "erbose") 0 (by decide) (by decide)
      (by decide)).2.2.2.1 (gs "3000000000") 3000000000 (by decide)).1 (by decide)⟩

/-! Machinery for the cluster-failure analysis (C7).  A `-` cluster stops
consuming characters as options when it meets a registered OptArg/OptVec, so
an unknown character is only reached when every character before it is a
registered Flag or Counter; in a `+` cluster every registered character of
any kind is consumed, so the first unknown character is always reached. -/

/-- Is a kind index that of a Flag (0) or a Counter (3)? -/
def kindFC : Option Nat → Bool
  | some 0 => true
  | some 3 => true
  | _ => false

/-- `c` is registered and points at a Flag or a Counter. -/
def flagOrCount (s : PState) (c : Char) : Bool :=
  match lookupShort s c with
  | none => false
  | some id => kindFC ((optValAt s id).map OptVal.kind)

/-- The effect of one Flag/Counter character scanned in a `-` cluster. -/
def posEffect (s : PState) (c : Char) : PState :=
  match lookupShort s c with
  | none => s
  | some id =>
    match optValAt s id with
    | some (.flag _) => setPassed s id true
    | some (.optCount _) => addCount s id 1
    | _ => s

/-- The effect of one registered character scanned in a `+` cluster. -/
def negEffect (s : PState) (c : Char) : PState :=
  match lookupShort s c with
  | none => s
  | some id => negApply s id

theorem vSetPassed_kind (b : Bool) : ∀ v, (vSetPassed b v).kind = v.kind := by
  intro v; cases v <;> rfl

theorem vAddCount_kind (k : Int) : ∀ v, (vAddCount k v).kind = v.kind := by
  intro v; cases v <;> rfl

theorem kindMap_updateOpt (s : PState) (id j : Nat) (f : OptVal → OptVal)
    (hf : ∀ v, (f v).kind = v.kind) :
    (optValAt (updateOpt s id f) j).map OptVal.kind = (optValAt s j).map OptVal.kind := by
  by_cases hij : id = j
  · subst hij
    rw [optValAt_updateOpt_self]
    cases optValAt s id with
    | none => rfl
    | some v => simp [hf v]
  · rw [optValAt_updateOpt_ne s id j f hij]

theorem flagOrCount_updateOpt (s : PState) (id : Nat) (f : OptVal → OptVal) (c : Char)
    (hf : ∀ v, (f v).kind = v.kind) :
    flagOrCount (updateOpt s id f) c = flagOrCount s c := by
  unfold flagOrCount
  rw [lookupShort_updateOpt]
  cases h : lookupShort s c with
  | none => rfl
  | some j => exact congrArg kindFC (kindMap_updateOpt s id j f hf)

theorem flagOrCount_setPassed (s : PState) (id : Nat) (b : Bool) (c : Char) :
    flagOrCount (setPassed s id b) c = flagOrCount s c :=
  flagOrCount_updateOpt s id (vSetPassed b) c (vSetPassed_kind b)

theorem flagOrCount_addCount (s : PState) (id : Nat) (k : Int) (c : Char) :
    flagOrCount (addCount s id k) c = flagOrCount s c :=
  flagOrCount_updateOpt s id (vAddCount k) c (vAddCount_kind k)

theorem lookupShort_negApply (s : PState) (id : Nat) (c : Char) :
    lookupShort (negApply s id) c = lookupShort s c := by
  cases h2 : optValAt s id with
  | none => simp [negApply, h2]
  | some v => cases v <;> simp [negApply, h2, lookupShort_setPassed, lookupShort_setOptVal]
      <;> rfl

/-- A `-` cluster scan over registered Flag/Counter characters followed by an
unknown character applies the Flag/Counter effects and fails at the unknown
character. -/
theorem scanMinus_prefix (pre : List Char) : ∀ s : PState,
    (∀ c ∈ pre, flagOrCount s c = true) →
    ∀ (c0 : Char) (suf : GoStr), lookupShort s c0 = none →
    scanMinus s (pre ++ c0 :: suf) = .fail (pre.foldl posEffect s) (.unrecognizedShort c0) := by
  induction pre with
  | nil =>
    intro s _ c0 suf hc0
    simp [scanMinus, hc0]
  | cons p pre ih =>
    intro s hpre c0 suf hc0
    have hp : flagOrCount s p = true := hpre p (List.mem_cons_self p pre)
    have hrest : ∀ c ∈ pre, flagOrCount s c = true :=
      fun c hm => hpre c (List.mem_cons_of_mem p hm)
    cases h1 : lookupShort s p with
    | none => simp [flagOrCount, h1, kindFC] at hp
    | some id =>
      cases h2 : optValAt s id with
      | none => simp [flagOrCount, h1, h2, kindFC] at hp
      | some v =>
        cases v with
        | flag b =>
          have heff : posEffect s p = setPassed s id true := by
            simp [posEffect, h1, h2]
          have hscan : scanMinus s ((p :: pre) ++ c0 :: suf) =
              scanMinus (setPassed s id true) (pre ++ c0 :: suf) := by
            show scanMinus s (p :: (pre ++ c0 :: suf)) = _
            simp [scanMinus, h1, h2]
          rw [hscan, ih (setPassed s id true)
            (fun c hm => by rw [flagOrCount_setPassed]; exact hrest c hm)
            c0 suf (by rw [lookupShort_setPassed]; exact hc0)]
          rw [List.foldl_cons, heff]
        | optArg a => simp [flagOrCount, h1, h2, OptVal.kind, kindFC] at hp
        | optVec a => simp [flagOrCount, h1, h2, OptVal.kind, kindFC] at hp
        | optCount n =>
          have heff : posEffect s p = addCount s id 1 := by
            simp [posEffect, h1, h2]
          have hscan : scanMinus s ((p :: pre) ++ c0 :: suf) =
              scanMinus (addCount s id 1) (pre ++ c0 :: suf) := by
            show scanMinus s (p :: (pre ++ c0 :: suf)) = _
            simp [scanMinus, h1, h2]
          rw [hscan, ih (addCount s id 1)
            (fun c hm => by rw [flagOrCount_addCount]; exact hrest c hm)
            c0 suf (by rw [lookupShort_addCount]; exact hc0)]
          rw [List.foldl_cons, heff]

/-- A `+` cluster scan over registered characters followed by an unknown
character applies the negate effects and fails at the unknown character. -/
theorem scanPlus_prefix (pre : List Char) : ∀ s : PState,
    (∀ c ∈ pre, (lookupShort s c).isSome) →
    ∀ (c0 : Char) (suf : GoStr), lookupShort s c0 = none →
    scanPlus s (pre ++ c0 :: suf) = (pre.foldl negEffect s, some (.unrecognizedShort c0)) := by
  induction pre with
  | nil =>
    intro s _ c0 suf hc0
    simp [scanPlus, hc0]
  | cons p pre ih =>
    intro s hpre c0 suf hc0
    have hp := hpre p (List.mem_cons_self p pre)
    obtain ⟨id, h1⟩ := Option.isSome_iff_exists.mp hp
    have heff : negEffect s p = negApply s id := by
      unfold negEffect
      rw [h1]
    have hscan : scanPlus s ((p :: pre) ++ c0 :: suf) =
        scanPlus (negApply s id) (pre ++ c0 :: suf) := by
      show scanPlus s (p :: (pre ++ c0 :: suf)) = _
      simp [scanPlus, h1]
    rw [hscan, ih (negApply s id)
      (fun c hm => by
        rw [lookupShort_negApply s id c]
        exact hpre c (List.mem_cons_of_mem p hm))
      c0 suf (by rw [lookupShort_negApply s id c0]; exact hc0)]
    rw [List.foldl_cons, heff]

/-- C7 (amended): a short-option cluster fails with the unrecognized-option
error exactly when the left-to-right scan reaches an unregistered character:
for a `-` cluster this means every earlier character is a registered
Flag/Counter (an earlier SingleArg/MultiArg would instead swallow the rest
of the token as its value), for a `+` cluster every earlier character is
registered; the effects of those earlier characters — and all mutations from
earlier tokens, already folded into `s` — remain applied, with no
rollback. -/
theorem C7_cluster_unknown (stdin : Option PError) (s : PState) (pre : List Char) (c0 : Char)
    (suf : GoStr) (hc0 : lookupShort s c0 = none) (hlen : 2 ≤ (pre ++ c0 :: suf).length) :
    ((∀ c ∈ pre, flagOrCount s c = true) → (pre ++ c0 :: suf).head? ≠ some '-' →
      ParseArgv stdin ['-' :: (pre ++ c0 :: suf)] s =
        (pre.foldl posEffect s, some (.unrecognizedShort c0)))
    ∧ ((∀ c ∈ pre, (lookupShort s c).isSome) →
      ParseArgv stdin ['+' :: (pre ++ c0 :: suf)] s =
        (pre.foldl negEffect s, some (.unrecognizedShort c0))) := by
  constructor
  · intro hpre hhd
    have hfail : stepTok stdin ('-' :: (pre ++ c0 :: suf)) s =
        .fail (pre.foldl posEffect s) (.unrecognizedShort c0) := by
      cases pre with
      | nil =>
        cases suf with
        | nil => simp at hlen
        | cons s1 suf2 =>
          have hc0d : c0 ≠ '-' := by simpa using hhd
          rw [show (([] : List Char) ++ c0 :: s1 :: suf2) = c0 :: s1 :: suf2 from rfl]
          rw [stepTok_minusCluster stdin c0 s1 suf2 s hc0d]
          exact scanMinus_prefix [] s (by simp) c0 (s1 :: suf2) hc0
      | cons p pre2 =>
        have hpd : p ≠ '-' := by simpa using hhd
        cases hq : pre2 ++ c0 :: suf with
        | nil => exact absurd hq (by simp)
        | cons q qs =>
          rw [show ((p :: pre2) ++ c0 :: suf) = p :: (pre2 ++ c0 :: suf) from rfl, hq]
          rw [stepTok_minusCluster stdin p q qs s hpd]
          rw [← hq]
          exact scanMinus_prefix (p :: pre2) s hpre c0 suf hc0
    rw [ParseArgv, parseLoop_step_fail stdin _ [] s _ _ (by simp) hfail]
  · intro hpre
    have hsp := scanPlus_prefix pre s hpre c0 suf hc0
    have hfail : stepTok stdin ('+' :: (pre ++ c0 :: suf)) s =
        .fail (pre.foldl negEffect s) (.unrecognizedShort c0) := by
      cases pre with
      | nil =>
        cases suf with
        | nil => simp at hlen
        | cons s1 suf2 =>
          rw [show (([] : List Char) ++ c0 :: s1 :: suf2) = c0 :: s1 :: suf2 from rfl] at hsp ⊢
          rw [stepTok_plusCluster stdin c0 s1 suf2 s, hsp]
      | cons p pre2 =>
        cases hq : pre2 ++ c0 :: suf with
        | nil => exact absurd hq (by simp)
        | cons q qs =>
          rw [show ((p :: pre2) ++ c0 :: suf) = p :: (pre2 ++ c0 :: suf) from rfl, hq] at hsp ⊢
          rw [stepTok_plusCluster stdin p q qs s, hsp]
    rw [ParseArgv, parseLoop_step_fail stdin _ [] s _ _ (by simp) hfail]

/-- Counterexample to C7 as stated: the cluster `-fzq` contains the
unregistered character `z`, yet with `f` a registered SingleArg the call
succeeds — `f` consumes `zq` as its attached value and `z` is never looked
up. -/
theorem C7_counterexample :
    lookupShort sArgW 'z' = none ∧ ('z' ∈ gs "-fzq") ∧
    ParseArgv none [gs "-fzq"] sArgW = (setOptVal sArgW 0 (gs "zq"), none) :=
  ⟨by decide, by decide, by decide⟩

/-- Witness for the amended C7 at a concrete input: `-azb` with Flag `a`
registered and `z` unregistered fails at `z`, keeping the effect on `a`. -/
theorem C7_cluster_unknown_witness :
    (lookupShort sAF 'z' = none ∧ 2 ≤ ((['a'] ++ 'z' :: ['b']) : List Char).length ∧
      (∀ c ∈ (['a'] : List Char), flagOrCount sAF c = true) ∧
      ((['a'] ++ 'z' :: ['b']) : List Char).head? ≠ some '-') ∧
    ParseArgv none ['-' :: (['a'] ++ 'z' :: ['b'])] sAF =
      ((['a'] : List Char).foldl posEffect sAF, some (.unrecognizedShort 'z')) :=
  ⟨⟨by decide, by decide, by decide, by decide⟩,
    (C7_cluster_unknown none sAF ['a'] 'z' ['b'] (by decide) (by decide)).1
      (by decide) (by decide)⟩

end Getopt
